import Mathlib

/-!
Shallow embedding of the code-execution adapter in
`UnsafeCodeExecutionTool.py` (direct invocation: `Tools._run_code`,
`Tools.run_bash_command`, `Tools.run_python_code`) and
`open-webui/functions/run_code.py` (transcript invocation:
`Action.action`), together with the `EventEmitter` notification
protocol shared by both files.

Python strings are modelled as `List Char`; the subprocess is an
oracle `Interp → List Char → ExecResult` giving, for each interpreter
and each stdin text, the outcome of `subprocess.run`.
-/

namespace UCE

/-- Whitespace class stripped by Python `str.strip()`. -/
def isWs (c : Char) : Bool := c.isWhitespace

/-- The backtick character (code point 96). -/
def tick : Char := Char.ofNat 96

/-- Membership in the char set of `strip("\x60")`. -/
def isTick (c : Char) : Bool := c == tick

/-- The triple-backtick markdown fence. -/
def ticks : List Char := "```".data

/-- Python left strip of the characters satisfying `p`. -/
def stripL (p : Char → Bool) (l : List Char) : List Char := l.dropWhile p

/-- Python right strip of the characters satisfying `p`. -/
def stripR (p : Char → Bool) (l : List Char) : List Char := (l.reverse.dropWhile p).reverse

/-- Python two-sided strip of the characters satisfying `p`. -/
def pyStripP (p : Char → Bool) (l : List Char) : List Char := stripR p (stripL p l)

/-- Python `str.strip()` (no arguments: whitespace). -/
def pyStrip (l : List Char) : List Char := pyStripP isWs l

/-- Python `str.strip("\x60")`. -/
def stripBackticks (l : List Char) : List Char := pyStripP isTick l

/-- Python `str.removeprefix`: drop `pre` from the front when it is a prefix. -/
def dropPre (pre l : List Char) : List Char :=
  if pre.isPrefixOf l then l.drop pre.length else l

/-- Python `str.removesuffix`: drop `suf` from the back when it is a suffix. -/
def dropSuf (suf l : List Char) : List Char :=
  if suf.reverse.isPrefixOf l.reverse then l.take (l.length - suf.length) else l

/-- Lines 99-102 of `Tools._run_code`:
`code.strip()`, then
`removeprefix("\x60\x60\x60" + language).removeprefix("\x60\x60\x60").removesuffix("\x60\x60\x60")`,
then `strip()`, then `strip("\x60").strip()`. -/
def normalizeCode (language code : List Char) : List Char :=
  pyStrip (stripBackticks (pyStrip
    (dropSuf ticks (dropPre ticks (dropPre (ticks ++ language) (pyStrip code))))))

/-- The two interpreter paths the sources select:
`/bin/bash` for bash and `sys.executable` for python. -/
inductive Interp where
  | binBash
  | sysExecutable
  deriving DecidableEq

/-- Outcome of `subprocess.run([interp, "/dev/stdin"], input=code+"\n", ...)`:
either the process exited (with return code, captured stdout and stderr),
or `subprocess.TimeoutExpired` was raised (carrying optional partial stderr). -/
inductive ExecResult where
  | exited (returncode : Int) (stdout stderr : List Char)
  | timedOut (stderr : Option (List Char))
  deriving DecidableEq

/-- The environment's subprocess behaviour, per interpreter and stdin text. -/
def Oracle := Interp → List Char → ExecResult

/-- The status strings assigned by either variant. -/
inductive Status where
  | OK
  | ERROR
  | TIMEOUT
  | INVALID_INPUT
  | SANDBOX_ERROR
  | UNKNOWN
  deriving DecidableEq

/-- Rendering of a status into message text. -/
def statusText : Status → List Char
  | .OK => "OK".data
  | .ERROR => "ERROR".data
  | .TIMEOUT => "TIMEOUT".data
  | .INVALID_INPUT => "INVALID_INPUT".data
  | .SANDBOX_ERROR => "SANDBOX_ERROR".data
  | .UNKNOWN => "UNKNOWN".data

/-- The `{"status": ..., "output": ...}` dictionary both variants return. -/
structure RunResult where
  status : Status
  output : Option (List Char)
  deriving DecidableEq

/-- Lines 144-145 (`_run_code`) and 145-146 (`action`):
`if output: output = output.strip()` — `None` and the empty string are
falsy and pass through unchanged. -/
def trimIfTruthy : Option (List Char) → Option (List Char)
  | none => none
  | some s => if s = [] then some [] else some (pyStrip s)

/-- Lines 120-143 of `Tools._run_code`: classification of the subprocess
outcome by direct branching — nonzero return code gives ERROR with stderr,
zero gives OK with stdout, `TimeoutExpired` gives TIMEOUT with the
exception's (optional) stderr. -/
def classifyTool : ExecResult → Status × Option (List Char)
  | .exited rc out err => if rc ≠ 0 then (.ERROR, some err) else (.OK, some out)
  | .timedOut st => (.TIMEOUT, st)

/-- The exceptions `Action.action` handles around `subprocess.run`. -/
inductive PyExc where
  | calledProcessError (returncode : Int) (stdout stderr : List Char)
  | timeoutExpired (stderr : Option (List Char))

/-- Lines 116-130 of `Action.action`: the body of the inner `try` — a
nonzero return code raises `CalledProcessError` (built from the captured
streams), zero yields OK with stdout; a timeout surfaces as the
`TimeoutExpired` exception. -/
def attemptRun : ExecResult → Except PyExc (Status × Option (List Char))
  | .exited rc out err =>
      if rc ≠ 0 then .error (.calledProcessError rc out err) else .ok (.OK, some out)
  | .timedOut st => .error (.timeoutExpired st)

/-- Lines 108-144 of `Action.action`: classification by raise-then-catch —
the `except` handlers set ERROR with `e.stderr` and TIMEOUT with `e.stderr`
respectively. -/
def classifyAction (r : ExecResult) : Status × Option (List Char) :=
  match attemptRun r with
  | .ok p => p
  | .error (.calledProcessError _ _ err) => (.ERROR, some err)
  | .error (.timeoutExpired st) => (.TIMEOUT, st)

/-- Execution phase of the direct variant: run the oracle on the code plus
the appended newline, classify, then trim truthy output. -/
def execPhaseTool (ex : Oracle) (i : Interp) (ncode : List Char) :
    Status × Option (List Char) :=
  ((classifyTool (ex i (ncode ++ "\n".data))).1,
   trimIfTruthy (classifyTool (ex i (ncode ++ "\n".data))).2)

/-- Execution phase of the transcript variant: same shape, but classifying
through the raise-then-catch path. -/
def execPhaseAction (ex : Oracle) (i : Interp) (ncode : List Char) :
    Status × Option (List Char) :=
  ((classifyAction (ex i (ncode ++ "\n".data))).1,
   trimIfTruthy (classifyAction (ex i (ncode ++ "\n".data))).2)

/-- Final message step (lines 154-176 of `_run_code`, 155-183 of `action`):
OK, TIMEOUT and ERROR fall through to `return {status, output}`; any other
status raises `RuntimeError("Unexplained status: ...")`. -/
def finalStep (st : Status) (out : Option (List Char)) : Except (List Char) RunResult :=
  if st = .OK ∨ st = .TIMEOUT ∨ st = .ERROR then .ok ⟨st, out⟩
  else .error ("Unexplained status: ".data ++ statusText st)

/-- Outermost `except Exception as e: return await _fail(f"Unhandled exception: {e}")`
(line 183-184 resp. 185-186): `_fail` returns the structured
`{"status": "SANDBOX_ERROR", "output": error_message}` result. -/
def catchAll : Except (List Char) RunResult → RunResult
  | .ok r => r
  | .error e => ⟨.SANDBOX_ERROR, some ("Unhandled exception: ".data ++ e)⟩

/-- Lines 111-115 of `Tools._run_code`: interpreter selection from the
language string. -/
def interpFor (language : String) : Option Interp :=
  if language = "bash" then some .binBash
  else if language = "python" then some .sysExecutable
  else none

/-- The `try` body of `Tools._run_code`: normalize, select the interpreter
(raising when none is found), execute, classify, trim, final message step. -/
def runCodeTry (ex : Oracle) (language code : String) : Except (List Char) RunResult :=
  match interpFor language with
  | none => .error ("Cannot find interpreter for language: " ++ language).data
  | some i =>
      finalStep (execPhaseTool ex i (normalizeCode language.data code.data)).1
        (execPhaseTool ex i (normalizeCode language.data code.data)).2

/-- `Tools._run_code`: the `try` body under the outermost catch-all. -/
def runCode (ex : Oracle) (language code : String) : RunResult :=
  catchAll (runCodeTry ex language code)

/-- The JSON object `Tools.run_bash_command` returns. -/
structure BashInvocation where
  bash_command : String
  status : Status
  output : Option (List Char)
  deriving DecidableEq

/-- The JSON object `Tools.run_python_code` returns. -/
structure PythonInvocation where
  python_code : String
  status : Status
  output : Option (List Char)
  deriving DecidableEq

/-- Lines 24-44: run with language "bash" and echo the raw argument in the
`bash_command` field. -/
def run_bash_command (ex : Oracle) (bash_command : String) : BashInvocation :=
  ⟨bash_command, (runCode ex "bash" bash_command).status,
    (runCode ex "bash" bash_command).output⟩

/-- Lines 46-66: run with language "python" and echo the raw argument in
the `python_code` field. -/
def run_python_code (ex : Oracle) (python_code : String) : PythonInvocation :=
  ⟨python_code, (runCode ex "python" python_code).status,
    (runCode ex "python" python_code).output⟩

/-- The only two language strings `Action.action` ever assigns. -/
inductive Lang where
  | python
  | bash
  deriving DecidableEq

/-- A chat message. -/
structure Msg where
  role : String
  content : String

/-- Python `content.split("\x60\x60\x60")`: split on non-overlapping
triple-backtick occurrences, scanning left to right. -/
def splitTicks : List Char → List Char → List (List Char)
  | [], acc => [acc.reverse]
  | [c1], acc => [(c1 :: acc).reverse]
  | [c1, c2], acc => [(c2 :: c1 :: acc).reverse]
  | c1 :: c2 :: c3 :: rest, acc =>
      if c1 = tick ∧ c2 = tick ∧ c3 = tick then acc.reverse :: splitTicks rest []
      else splitTicks (c2 :: c3 :: rest) (c1 :: acc)

/-- Elements at odd indices (1, 3, 5, ...) of a list; combined with
`List.reverse` this is the Python slice `[-2:0:-2]` on odd-length lists. -/
def oddElems {α : Type} : List α → List α
  | [] => []
  | [_] => []
  | _ :: b :: rest => b :: oddElems rest

/-- Line 57: `code_block.startswith("python\n") or code_block.startswith("python3\n")`. -/
def isPyTagB (b : List Char) : Bool :=
  "python\n".data.isPrefixOf b || "python3\n".data.isPrefixOf b

/-- Line 60: `startswith("bash\n") or startswith("sh\n") or startswith("shell\n")`. -/
def isShTagB (b : List Char) : Bool :=
  "bash\n".data.isPrefixOf b || "sh\n".data.isPrefixOf b || "shell\n".data.isPrefixOf b

/-- Lines 56-63 of `Action.action`: the reverse scan over candidate blocks.
A python-tagged block overwrites the accumulator and scanning continues;
a shell-tagged block is returned immediately (`break`). -/
def scanBlocks : List (List Char) → Option (List Char × Lang) → Option (List Char × Lang)
  | [], acc => acc
  | b :: rest, acc =>
      if isPyTagB b then scanBlocks rest (some (b, .python))
      else if isShTagB b then some (b, .bash)
      else scanBlocks rest acc

/-- Line 66: `last_code_block.strip().split("\n")[0]`. -/
def firstLineOf (l : List Char) : List Char :=
  (pyStrip l).takeWhile (fun c => c != '\n')

/-- Python `in` on strings: `pat` occurs contiguously in `l`. -/
def containsSeq (pat : List Char) : List Char → Bool
  | [] => pat.isPrefixOf ([] : List Char)
  | c :: t => pat.isPrefixOf (c :: t) || containsSeq pat t

/-- Python `str.endswith`. -/
def endsWith (suf l : List Char) : Bool := suf.reverse.isPrefixOf l.reverse

/-- Lines 64-86 of `Action.action`: fallback classification of the single
most recent code block — shebang line first, then python-like tokens, then
shell-like tokens. -/
def classifyLast (b : List Char) : Option (List Char × Lang) :=
  let firstLine := firstLineOf b
  if "#!".data.isPrefixOf firstLine &&
      (endsWith "python".data firstLine || endsWith "python3".data firstLine) then
    some (b, .python)
  else if "#!".data.isPrefixOf firstLine && endsWith "sh".data firstLine then
    some (b, .bash)
  else if containsSeq "import ".data b || containsSeq "print(".data b ||
      containsSeq "print ".data b then
    some (b, .python)
  else if containsSeq "echo ".data b || containsSeq "if [".data b ||
      containsSeq "; do".data b || containsSeq "esac\n".data b then
    some (b, .bash)
  else none

/-- Lines 94-97 of `Action.action`: strip the leading language marker from
the chosen block (`python3` then `python`; `shell` then `bash` then `sh`). -/
def stripLangMarker : Lang → List Char → List Char
  | .python, code => dropPre "python".data (dropPre "python3".data code)
  | .bash, code => dropPre "sh".data (dropPre "bash".data (dropPre "shell".data code))

/-- Interpreter selected by `Action.action` for each of the two languages
it can assign (lines 109-113). -/
def interpOf : Lang → Interp
  | .bash => .binBash
  | .python => .sysExecutable

/-- The `try` body of `Action.action` once a block and language are chosen:
strip the marker, `strip()`, execute, classify via raise-then-catch, trim,
final message step. -/
def actionTry (ex : Oracle) (lang : Lang) (block : List Char) :
    Except (List Char) RunResult :=
  finalStep
    (execPhaseAction ex (interpOf lang) (pyStrip (stripLangMarker lang block))).1
    (execPhaseAction ex (interpOf lang) (pyStrip (stripLangMarker lang block))).2

/-- Lines 41-90 of `Action.action`: transcript validation and block
selection, before the `try` block.  Errors carry the structured result
`_fail` returns (note the last `_fail` call passes no status, so its
default "SANDBOX_ERROR" applies). -/
def parseLast (last : Msg) : Except RunResult (List Char × Lang) :=
  if last.role = "assistant" then
    if (splitTicks last.content.data []).length < 3 ∨
        (splitTicks last.content.data []).length % 2 ≠ 1 then
      .error ⟨.INVALID_INPUT,
        some "Last message did not contain well-formed code blocks.".data⟩
    else
      match scanBlocks ((oddElems (splitTicks last.content.data [])).reverse) none with
      | some p => .ok p
      | none =>
          match classifyLast ((splitTicks last.content.data []).getD
              ((splitTicks last.content.data []).length - 2) []) with
          | some p => .ok p
          | none => .error ⟨.SANDBOX_ERROR,
              some "Message does not contain code blocks detected as Python or Bash.".data⟩
  else .error ⟨.INVALID_INPUT, some "Last message was not from the AI model.".data⟩

def parseTranscript (msgs : List Msg) : Except RunResult (List Char × Lang) :=
  match msgs.getLast? with
  | none => .error ⟨.INVALID_INPUT, some "No messages in conversation.".data⟩
  | some last => parseLast last

/-- `Action.action`: validation and selection, then the `try` body under
the outermost catch-all. -/
def action (ex : Oracle) (msgs : List Msg) : RunResult :=
  match parseTranscript msgs with
  | .error r => r
  | .ok (block, lang) => catchAll (actionTry ex lang block)

/-- Snapshot of a `CodeExecutionTracker`. -/
structure Tracker where
  name : List Char
  code : List Char
  language : List Char
  outputR : Option (List Char) := none
  errorR : Option (List Char) := none
  deriving DecidableEq

/-- The citation payload `_citation_data` builds: the `result` field is
present exactly when an output or an error has been recorded. -/
structure CitationData where
  name : List Char
  code : List Char
  language : List Char
  result : Option (Option (List Char) × Option (List Char))
  deriving DecidableEq

/-- `CodeExecutionTracker._citation_data`. -/
def citationData (tr : Tracker) : CitationData :=
  ⟨tr.name, tr.code, tr.language,
    if tr.outputR.isSome || tr.errorR.isSome then some (tr.outputR, tr.errorR) else none⟩

/-- A notification handed to the sink callback. -/
inductive Event where
  | statusEv (status description : List Char) (done : Bool)
  | messageEv (content : List Char)
  | citationEv (data : CitationData)
  deriving DecidableEq

/-- The `EventEmitter` instance state: whether a sink callback is present,
the debug flag, the optional status prefix string, and the
`_emitted_status` flag. -/
structure EventEmitter where
  hasSink : Bool
  debug : Bool := false
  statusPre : Option (List Char) := none
  emittedStatus : Bool := false
  deriving DecidableEq

namespace EventEmitter

/-- `EventEmitter._emit`: with no sink nothing is delivered; otherwise the
event is delivered twice when `twice` holds, once otherwise.  The result is
the list of sink invocations, in order. -/
def emit (em : EventEmitter) (e : Event) (twice : Bool) : List Event :=
  if em.hasSink then (if twice then [e, e] else [e]) else []

/-- `EventEmitter.status`: sets the emitted flag, prepends the prefix to
the description, and duplicates the event exactly when it is not terminal
and the description is at most 1024 characters. -/
def status (em : EventEmitter) (description stat : List Char) (done : Bool) :
    EventEmitter × List Event :=
  let em' := { em with emittedStatus := true }
  let description := match em.statusPre with
    | some p => p ++ description
    | none => description
  (em', em'.emit (.statusEv stat description done)
    (!done && decide (description.length ≤ 1024)))

/-- `EventEmitter.fail`: a terminal error status. -/
def fail (em : EventEmitter) (description : List Char) : EventEmitter × List Event :=
  em.status description "error".data true

/-- `EventEmitter.clear_status`: a no-op when no status was ever emitted;
otherwise reset the flag and emit a terminal empty "complete" status with
`twice=True`. -/
def clear_status (em : EventEmitter) : EventEmitter × List Event :=
  if !em.emittedStatus then (em, [])
  else
    let em' := { em with emittedStatus := false }
    (em', em'.emit (.statusEv "complete".data [] true) true)

/-- `EventEmitter.message`: a message notification with `twice=False`. -/
def message (em : EventEmitter) (content : List Char) : EventEmitter × List Event :=
  (em, em.emit (.messageEv content) false)

/-- `EventEmitter.code_execution`: a citation notification with
`twice=True`, unconditionally. -/
def code_execution (em : EventEmitter) (tr : Tracker) : EventEmitter × List Event :=
  (em, em.emit (.citationEv (citationData tr)) true)

end EventEmitter

/-- An oracle used by concrete test inputs: every execution exits 0 and
echoes its stdin to stdout. -/
def exEcho : Oracle := fun _ c => .exited 0 c []

/-! ## Lemmas about the string-stripping primitives -/

theorem stripL_head_false (p : Char → Bool) :
    ∀ (l : List Char) (a : Char), (stripL p l).head? = some a → p a = false := by
  intro l
  induction l with
  | nil => intro a h; simp [stripL, List.dropWhile] at h
  | cons c t ih =>
    intro a h
    unfold stripL at h
    rw [List.dropWhile_cons] at h
    by_cases hc : p c
    · rw [if_pos hc] at h; exact ih a h
    · rw [if_neg hc] at h
      simp at h
      rw [← h]
      simpa using hc

theorem stripL_eq_self (p : Char → Bool) (l : List Char)
    (h : ∀ a, l.head? = some a → p a = false) : stripL p l = l := by
  cases l with
  | nil => rfl
  | cons c t =>
    have hc := h c rfl
    simp [stripL, List.dropWhile_cons, hc]

theorem stripR_eq_self (p : Char → Bool) (l : List Char)
    (h : ∀ a, l.getLast? = some a → p a = false) : stripR p l = l := by
  unfold stripR
  have h' : ∀ a, l.reverse.head? = some a → p a = false := by
    intro a ha
    exact h a (by rwa [List.head?_reverse] at ha)
  rw [show List.dropWhile p l.reverse = stripL p l.reverse from rfl,
    stripL_eq_self p l.reverse h', List.reverse_reverse]

theorem pyStripP_eq_self (p : Char → Bool) (l : List Char)
    (h1 : ∀ a, l.head? = some a → p a = false)
    (h2 : ∀ a, l.getLast? = some a → p a = false) : pyStripP p l = l := by
  unfold pyStripP
  rw [stripL_eq_self p l h1, stripR_eq_self p l h2]

theorem stripL_isSuffix (p : Char → Bool) : ∀ l : List Char, ∃ t, t ++ stripL p l = l := by
  intro l
  induction l with
  | nil => exact ⟨[], rfl⟩
  | cons c t ih =>
    unfold stripL
    rw [List.dropWhile_cons]
    by_cases hc : p c
    · rw [if_pos hc]
      obtain ⟨s, hs⟩ := ih
      exact ⟨c :: s, by simpa [stripL] using congrArg (c :: ·) hs⟩
    · rw [if_neg hc]; exact ⟨[], rfl⟩

theorem stripR_isPre (p : Char → Bool) (l : List Char) : ∃ t, stripR p l ++ t = l := by
  obtain ⟨s, hs⟩ := stripL_isSuffix p l.reverse
  refine ⟨s.reverse, ?_⟩
  unfold stripR
  have h2 := congrArg List.reverse hs
  simpa [stripL] using h2

theorem pyStripP_head_false (p : Char → Bool) (l : List Char) (a : Char)
    (h : (pyStripP p l).head? = some a) : p a = false := by
  unfold pyStripP at h
  obtain ⟨t, ht⟩ := stripR_isPre p (stripL p l)
  have hhd : (stripL p l).head? = some a := by
    rw [← ht]
    cases hsr : stripR p (stripL p l) with
    | nil => rw [hsr] at h; simp at h
    | cons x xs =>
      rw [hsr] at h
      simp at h
      rw [← h]
      rfl
  exact stripL_head_false p l a hhd

theorem pyStripP_last_false (p : Char → Bool) (l : List Char) (a : Char)
    (h : (pyStripP p l).getLast? = some a) : p a = false := by
  unfold pyStripP stripR at h
  rw [List.getLast?_reverse] at h
  exact stripL_head_false p _ a h

theorem pyStripP_idem (p : Char → Bool) (l : List Char) :
    pyStripP p (pyStripP p l) = pyStripP p l :=
  pyStripP_eq_self p _ (fun a ha => pyStripP_head_false p l a ha)
    (fun a ha => pyStripP_last_false p l a ha)

theorem trimIfTruthy_trimmed (o : Option (List Char)) (s : List Char)
    (h : trimIfTruthy o = some s) (hne : s ≠ []) : pyStrip s = s := by
  cases o with
  | none => simp [trimIfTruthy] at h
  | some t =>
    by_cases ht : t = []
    · subst ht
      simp [trimIfTruthy] at h
      exact absurd h hne
    · simp [trimIfTruthy, ht] at h
      rw [← h]
      exact pyStripP_idem isWs t

theorem isPrefixOf_false_of_head {c a : Char} (pre t : List Char) (h : a ≠ c) :
    (c :: pre).isPrefixOf (a :: t) = false := by
  have hb : (c == a) = false := by
    cases hca : c == a
    · rfl
    · exact absurd (eq_of_beq hca) (fun e => h e.symm)
  simp [List.isPrefixOf, hb]

theorem dropPre_eq_self {c : Char} (pre l : List Char) (hp : pre.head? = some c)
    (h : l.head? ≠ some c) : dropPre pre l = l := by
  unfold dropPre
  cases pre with
  | nil => simp at hp
  | cons c0 pre' =>
    have hc0 : c0 = c := by simpa using hp
    cases l with
    | nil => simp [List.isPrefixOf]
    | cons a t =>
      have ha : a ≠ c0 := fun e => h (by simp [e, hc0])
      have hf := isPrefixOf_false_of_head (c := c0) (a := a) pre' t ha
      rw [hf]
      simp

theorem dropSuf_eq_self {c : Char} (suf l : List Char) (hp : suf.reverse.head? = some c)
    (h : l.getLast? ≠ some c) : dropSuf suf l = l := by
  unfold dropSuf
  have h2 : l.reverse.head? ≠ some c := by rwa [List.head?_reverse]
  cases hsr : suf.reverse with
  | nil => rw [hsr] at hp; simp at hp
  | cons c0 s' =>
    rw [hsr] at hp
    have hc0 : c0 = c := by simpa using hp
    cases hlr : l.reverse with
    | nil => simp [List.isPrefixOf]
    | cons a t =>
      have h2' : (a :: t).head? ≠ some c := by rw [← hlr]; exact h2
      have ha : a ≠ c0 := fun e => h2' (by simp [e, hc0])
      have hf := isPrefixOf_false_of_head (c := c0) (a := a) s' t ha
      rw [hf]
      simp

theorem ticks_head : (ticks : List Char).head? = some tick := by decide

theorem ticks_rev_head : ((ticks : List Char).reverse).head? = some tick := by decide

theorem ticks_append_head (language : List Char) :
    (ticks ++ language).head? = some tick := by
  have h : (ticks : List Char) = tick :: tick :: tick :: [] := by decide
  rw [h]
  rfl

theorem beq_tick_false {a : Char} (h : a ≠ tick) : (a == tick) = false := by
  cases hb : a == tick
  · rfl
  · exact absurd (eq_of_beq hb) h

/-- Normalization is the identity on a text with no surrounding whitespace
and no leading or trailing backtick. -/
theorem normalizeCode_fix (language z : List Char)
    (hw1 : ∀ a, z.head? = some a → isWs a = false)
    (hw2 : ∀ a, z.getLast? = some a → isWs a = false)
    (ht1 : z.head? ≠ some tick)
    (ht2 : z.getLast? ≠ some tick) :
    normalizeCode language z = z := by
  have h1 : pyStrip z = z := pyStripP_eq_self isWs z hw1 hw2
  have h2 : dropPre (ticks ++ language) z = z :=
    dropPre_eq_self (c := tick) _ z (ticks_append_head language) ht1
  have h3 : dropPre ticks z = z := dropPre_eq_self (c := tick) _ z ticks_head ht1
  have h4 : dropSuf ticks z = z := dropSuf_eq_self (c := tick) _ z ticks_rev_head ht2
  have h5 : stripBackticks z = z := by
    refine pyStripP_eq_self isTick z ?_ ?_
    · intro a ha
      exact beq_tick_false (fun e => ht1 (by rw [← e]; exact ha))
    · intro a ha
      exact beq_tick_false (fun e => ht2 (by rw [← e]; exact ha))
  unfold normalizeCode
  rw [h1, h2, h3, h4, h1, h5, h1]

theorem normalizeCode_head_false (language x : List Char) (a : Char)
    (h : (normalizeCode language x).head? = some a) : isWs a = false := by
  unfold normalizeCode pyStrip at h
  exact pyStripP_head_false isWs _ a h

theorem normalizeCode_last_false (language x : List Char) (a : Char)
    (h : (normalizeCode language x).getLast? = some a) : isWs a = false := by
  unfold normalizeCode pyStrip at h
  exact pyStripP_last_false isWs _ a h

/-! ## Lemmas about classification and the catch-all -/

theorem classifyAction_eq (r : ExecResult) : classifyAction r = classifyTool r := by
  cases r with
  | exited rc out err =>
    unfold classifyAction attemptRun classifyTool
    by_cases h : rc = 0
    · simp [h]
    · simp [h]
  | timedOut st => rfl

theorem classifyTool_fst (r : ExecResult) :
    (classifyTool r).1 = .OK ∨ (classifyTool r).1 = .TIMEOUT ∨ (classifyTool r).1 = .ERROR := by
  cases r with
  | exited rc out err =>
    unfold classifyTool
    by_cases h : rc = 0
    · simp [h]
    · simp [h]
  | timedOut st => simp [classifyTool]

theorem execPhaseTool_fst (ex : Oracle) (i : Interp) (ncode : List Char) :
    (execPhaseTool ex i ncode).1 = .OK ∨ (execPhaseTool ex i ncode).1 = .TIMEOUT ∨
    (execPhaseTool ex i ncode).1 = .ERROR :=
  classifyTool_fst (ex i (ncode ++ "\n".data))

theorem execPhaseAction_fst (ex : Oracle) (i : Interp) (ncode : List Char) :
    (execPhaseAction ex i ncode).1 = .OK ∨ (execPhaseAction ex i ncode).1 = .TIMEOUT ∨
    (execPhaseAction ex i ncode).1 = .ERROR := by
  have h : (execPhaseAction ex i ncode).1 = (classifyTool (ex i (ncode ++ "\n".data))).1 := by
    unfold execPhaseAction
    rw [classifyAction_eq]
  rw [h]
  exact classifyTool_fst (ex i (ncode ++ "\n".data))

theorem finalStep_ok_of (st : Status) (out : Option (List Char))
    (h : st = .OK ∨ st = .TIMEOUT ∨ st = .ERROR) : finalStep st out = .ok ⟨st, out⟩ := by
  unfold finalStep
  rw [if_pos h]

theorem runCode_cases (ex : Oracle) (language code : String) (i : Interp)
    (h : interpFor language = some i) :
    runCode ex language code =
      match ex i (normalizeCode language.data code.data ++ "\n".data) with
      | .exited rc out err =>
          if rc ≠ 0 then ⟨.ERROR, trimIfTruthy (some err)⟩
          else ⟨.OK, trimIfTruthy (some out)⟩
      | .timedOut st => ⟨.TIMEOUT, trimIfTruthy st⟩ := by
  unfold runCode runCodeTry
  rw [h]
  cases hex : ex i (normalizeCode language.data code.data ++ "\n".data) with
  | exited rc out err =>
    by_cases hrc : rc = 0
    · subst hrc
      simp [execPhaseTool, classifyTool, hex, finalStep, catchAll]
    · simp [execPhaseTool, classifyTool, hex, finalStep, catchAll, hrc]
  | timedOut st =>
    simp [execPhaseTool, classifyTool, hex, finalStep, catchAll]

theorem runCodeTry_none (ex : Oracle) (language code : String)
    (h : interpFor language = none) :
    runCodeTry ex language code =
      .error ("Cannot find interpreter for language: " ++ language).data := by
  unfold runCodeTry
  rw [h]

theorem runCodeTry_some (ex : Oracle) (language code : String) (i : Interp)
    (h : interpFor language = some i) :
    runCodeTry ex language code =
      finalStep (execPhaseTool ex i (normalizeCode language.data code.data)).1
        (execPhaseTool ex i (normalizeCode language.data code.data)).2 := by
  unfold runCodeTry
  rw [h]

theorem runCode_status_mem (ex : Oracle) (language code : String) :
    (runCode ex language code).status = .SANDBOX_ERROR ∨
    (runCode ex language code).status = .OK ∨
    (runCode ex language code).status = .TIMEOUT ∨
    (runCode ex language code).status = .ERROR := by
  cases hI : interpFor language with
  | none =>
    left
    unfold runCode
    rw [runCodeTry_none ex language code hI]
    rfl
  | some i =>
    have hp := execPhaseTool_fst ex i (normalizeCode language.data code.data)
    unfold runCode
    rw [runCodeTry_some ex language code i hI, finalStep_ok_of _ _ hp]
    exact Or.inr hp

/-! ## Lemmas about the transcript path -/

theorem actionTry_eq (ex : Oracle) (lang : Lang) (block : List Char) :
    actionTry ex lang block =
      .ok ⟨(execPhaseAction ex (interpOf lang) (pyStrip (stripLangMarker lang block))).1,
           (execPhaseAction ex (interpOf lang) (pyStrip (stripLangMarker lang block))).2⟩ := by
  unfold actionTry
  exact finalStep_ok_of _ _ (execPhaseAction_fst _ _ _)

theorem actionCore_status (ex : Oracle) (lang : Lang) (block : List Char) :
    (catchAll (actionTry ex lang block)).status = .OK ∨
    (catchAll (actionTry ex lang block)).status = .TIMEOUT ∨
    (catchAll (actionTry ex lang block)).status = .ERROR := by
  rw [actionTry_eq]
  exact execPhaseAction_fst ex (interpOf lang) (pyStrip (stripLangMarker lang block))

theorem parse_some (msgs : List Msg) (last : Msg) (h : msgs.getLast? = some last) :
    parseTranscript msgs = parseLast last := by
  unfold parseTranscript
  rw [h]

theorem parse_eq_none (msgs : List Msg) (h : msgs.getLast? = none) :
    parseTranscript msgs =
      .error ⟨.INVALID_INPUT, some "No messages in conversation.".data⟩ := by
  unfold parseTranscript
  rw [h]

theorem parse_eq_role (msgs : List Msg) (last : Msg) (h : msgs.getLast? = some last)
    (hr : ¬ last.role = "assistant") :
    parseTranscript msgs =
      .error ⟨.INVALID_INPUT, some "Last message was not from the AI model.".data⟩ := by
  rw [parse_some msgs last h]
  unfold parseLast
  rw [if_neg hr]

theorem parse_eq_fences (msgs : List Msg) (last : Msg) (h : msgs.getLast? = some last)
    (hr : last.role = "assistant")
    (hs : (splitTicks last.content.data []).length < 3 ∨
      (splitTicks last.content.data []).length % 2 ≠ 1) :
    parseTranscript msgs =
      .error ⟨.INVALID_INPUT,
        some "Last message did not contain well-formed code blocks.".data⟩ := by
  rw [parse_some msgs last h]
  unfold parseLast
  rw [if_pos hr, if_pos hs]

theorem parse_eq_scan (msgs : List Msg) (last : Msg) (p : List Char × Lang)
    (h : msgs.getLast? = some last) (hr : last.role = "assistant")
    (hs : ¬((splitTicks last.content.data []).length < 3 ∨
      (splitTicks last.content.data []).length % 2 ≠ 1))
    (hscan : scanBlocks ((oddElems (splitTicks last.content.data [])).reverse) none = some p) :
    parseTranscript msgs = .ok p := by
  rw [parse_some msgs last h]
  unfold parseLast
  rw [if_pos hr, if_neg hs, hscan]

theorem parse_eq_classify (msgs : List Msg) (last : Msg) (p : List Char × Lang)
    (h : msgs.getLast? = some last) (hr : last.role = "assistant")
    (hs : ¬((splitTicks last.content.data []).length < 3 ∨
      (splitTicks last.content.data []).length % 2 ≠ 1))
    (hscan : scanBlocks ((oddElems (splitTicks last.content.data [])).reverse) none = none)
    (hcl : classifyLast ((splitTicks last.content.data []).getD
        ((splitTicks last.content.data []).length - 2) []) = some p) :
    parseTranscript msgs = .ok p := by
  rw [parse_some msgs last h]
  unfold parseLast
  rw [if_pos hr, if_neg hs, hscan, hcl]

theorem parse_eq_noblock (msgs : List Msg) (last : Msg)
    (h : msgs.getLast? = some last) (hr : last.role = "assistant")
    (hs : ¬((splitTicks last.content.data []).length < 3 ∨
      (splitTicks last.content.data []).length % 2 ≠ 1))
    (hscan : scanBlocks ((oddElems (splitTicks last.content.data [])).reverse) none = none)
    (hcl : classifyLast ((splitTicks last.content.data []).getD
        ((splitTicks last.content.data []).length - 2) []) = none) :
    parseTranscript msgs =
      .error ⟨.SANDBOX_ERROR,
        some "Message does not contain code blocks detected as Python or Bash.".data⟩ := by
  rw [parse_some msgs last h]
  unfold parseLast
  rw [if_pos hr, if_neg hs, hscan, hcl]

theorem parse_error_status (msgs : List Msg) (r : RunResult)
    (h : parseTranscript msgs = .error r) :
    r.status = .INVALID_INPUT ∨ r.status = .SANDBOX_ERROR := by
  cases hml : msgs.getLast? with
  | none =>
    rw [parse_eq_none msgs hml] at h
    injection h with h'
    rw [← h']
    left; rfl
  | some last =>
    by_cases hrole : last.role = "assistant"
    · by_cases hseg : (splitTicks last.content.data []).length < 3 ∨
          (splitTicks last.content.data []).length % 2 ≠ 1
      · rw [parse_eq_fences msgs last hml hrole hseg] at h
        injection h with h'
        rw [← h']
        left; rfl
      · cases hscan : scanBlocks ((oddElems (splitTicks last.content.data [])).reverse)
            none with
        | some p =>
          rw [parse_eq_scan msgs last p hml hrole hseg hscan] at h
          exact Except.noConfusion h
        | none =>
          cases hcl : classifyLast ((splitTicks last.content.data []).getD
              ((splitTicks last.content.data []).length - 2) []) with
          | some p =>
            rw [parse_eq_classify msgs last p hml hrole hseg hscan hcl] at h
            exact Except.noConfusion h
          | none =>
            rw [parse_eq_noblock msgs last hml hrole hseg hscan hcl] at h
            injection h with h'
            rw [← h']
            right; rfl
    · rw [parse_eq_role msgs last hml hrole] at h
      injection h with h'
      rw [← h']
      left; rfl

theorem action_of_parse_error (ex : Oracle) (msgs : List Msg) (r : RunResult)
    (h : parseTranscript msgs = .error r) : action ex msgs = r := by
  unfold action
  rw [h]

theorem action_of_parse_ok (ex : Oracle) (msgs : List Msg) (block : List Char) (lang : Lang)
    (h : parseTranscript msgs = .ok (block, lang)) :
    action ex msgs = catchAll (actionTry ex lang block) := by
  unfold action
  rw [h]

theorem action_status_mem (ex : Oracle) (msgs : List Msg) :
    (action ex msgs).status = .INVALID_INPUT ∨ (action ex msgs).status = .SANDBOX_ERROR ∨
    (action ex msgs).status = .OK ∨ (action ex msgs).status = .TIMEOUT ∨
    (action ex msgs).status = .ERROR := by
  cases hp : parseTranscript msgs with
  | error r =>
    rw [action_of_parse_error ex msgs r hp]
    rcases parse_error_status msgs r hp with h | h
    · left; exact h
    · right; left; exact h
  | ok p =>
    obtain ⟨block, lang⟩ := p
    rw [action_of_parse_ok ex msgs block lang hp]
    rcases actionCore_status ex lang block with h | h | h
    · right; right; left; exact h
    · right; right; right; left; exact h
    · right; right; right; right; exact h

/-! ## Lemmas about the block scan -/

theorem isPrefixOf_ex : ∀ {l₁ l₂ : List Char}, l₁.isPrefixOf l₂ = true → ∃ t, l₁ ++ t = l₂ := by
  intro l₁
  induction l₁ with
  | nil => intro l₂ _; exact ⟨l₂, rfl⟩
  | cons a as ih =>
    intro l₂ h
    cases l₂ with
    | nil => simp [List.isPrefixOf] at h
    | cons b bs =>
      simp only [List.isPrefixOf, Bool.and_eq_true, beq_iff_eq] at h
      obtain ⟨rfl, h2⟩ := h
      obtain ⟨t, ht⟩ := ih h2
      exact ⟨t, by rw [List.cons_append, ht]⟩

theorem tag_disjoint (b : List Char) (h : isPyTagB b = true) : isShTagB b = false := by
  have hp : b.head? = some 'p' := by
    unfold isPyTagB at h
    simp only [Bool.or_eq_true] at h
    rcases h with h | h
    · obtain ⟨t, ht⟩ := isPrefixOf_ex h
      rw [← ht]; rfl
    · obtain ⟨t, ht⟩ := isPrefixOf_ex h
      rw [← ht]; rfl
  cases b with
  | nil => simp at hp
  | cons c t =>
    have hc : c = 'p' := by simpa using hp
    unfold isShTagB
    have h1 : "bash\n".data.isPrefixOf (c :: t) = false := by
      rw [show "bash\n".data = 'b' :: "ash\n".data from rfl]
      exact isPrefixOf_false_of_head "ash\n".data t (by rw [hc]; decide)
    have h2 : "sh\n".data.isPrefixOf (c :: t) = false := by
      rw [show "sh\n".data = 's' :: "h\n".data from rfl]
      exact isPrefixOf_false_of_head "h\n".data t (by rw [hc]; decide)
    have h3 : "shell\n".data.isPrefixOf (c :: t) = false := by
      rw [show "shell\n".data = 's' :: "hell\n".data from rfl]
      exact isPrefixOf_false_of_head "hell\n".data t (by rw [hc]; decide)
    rw [h1, h2, h3]
    rfl

theorem getLast?_cons_getD {α : Type} (b : α) :
    ∀ l : List α, (b :: l).getLast? = some (l.getLast?.getD b)
  | [] => rfl
  | c :: t => by
      rw [List.getLast?_cons_cons, getLast?_cons_getD c t]
      rfl

theorem scanBlocks_no_shell :
    ∀ (cands : List (List Char)) (acc : Option (List Char × Lang)),
    (∀ b ∈ cands, isShTagB b = false) →
    scanBlocks cands acc =
      (match (cands.filter isPyTagB).getLast? with
       | some b => some (b, Lang.python)
       | none => acc) := by
  intro cands
  induction cands with
  | nil => intro acc _; rfl
  | cons b rest ih =>
    intro acc h
    have hb : isShTagB b = false := h b (List.mem_cons_self b rest)
    have hrest : ∀ x ∈ rest, isShTagB x = false := fun x hx => h x (List.mem_cons_of_mem b hx)
    by_cases hp : isPyTagB b
    · have hstep : scanBlocks (b :: rest) acc = scanBlocks rest (some (b, .python)) := by
        conv_lhs => rw [scanBlocks]
        rw [if_pos hp]
      rw [hstep, ih _ hrest, List.filter_cons_of_pos hp, getLast?_cons_getD]
      cases hfl : (rest.filter isPyTagB).getLast? with
      | none => rfl
      | some x => rfl
    · have hps : ¬ isPyTagB b = true := hp
      have hstep : scanBlocks (b :: rest) acc = scanBlocks rest acc := by
        conv_lhs => rw [scanBlocks]
        rw [if_neg hp, if_neg (by simp [hb])]
      rw [hstep, ih _ hrest, List.filter_cons_of_neg (by simpa using hps)]

theorem scanBlocks_shell :
    ∀ (cands : List (List Char)) (acc : Option (List Char × Lang)) (b : List Char),
    cands.find? isShTagB = some b → scanBlocks cands acc = some (b, .bash) := by
  intro cands
  induction cands with
  | nil => intro acc b h; simp [List.find?] at h
  | cons c rest ih =>
    intro acc b h
    by_cases hp : isPyTagB c
    · have hs : isShTagB c = false := tag_disjoint c hp
      have h' : rest.find? isShTagB = some b := by
        simpa [List.find?, hs] using h
      have hstep : scanBlocks (c :: rest) acc = scanBlocks rest (some (c, .python)) := by
        conv_lhs => rw [scanBlocks]
        rw [if_pos hp]
      rw [hstep]
      exact ih _ b h'
    · by_cases hs : isShTagB c
      · have hbc : b = c := by
          have h' := h
          simp [List.find?, hs] at h'
          exact h'.symm
        subst hbc
        conv_lhs => rw [scanBlocks]
        rw [if_neg hp, if_pos hs]
      · have h' : rest.find? isShTagB = some b := by
          simpa [List.find?, hs] using h
        have hstep : scanBlocks (c :: rest) acc = scanBlocks rest acc := by
          conv_lhs => rw [scanBlocks]
          rw [if_neg hp, if_neg hs]
        rw [hstep]
        exact ih _ b h'

/-! ## Claim theorems: notifier and shared core -/

/-- C9: the direct-invocation variant and the transcript-invocation
variant share the execution-and-classification core: for the same
interpreter and the same normalized code they produce the same
`(status, output)` pair, the only internal divergence being that the
transcript variant classifies a nonzero exit through raise-then-catch
(`classifyAction`) where the direct variant branches (`classifyTool`) —
and the two classifiers agree on every subprocess outcome. -/
theorem c9_shared_core (ex : Oracle) (i : Interp) (ncode : List Char) (r : ExecResult) :
    classifyAction r = classifyTool r ∧
    execPhaseAction ex i ncode = execPhaseTool ex i ncode :=
  ⟨classifyAction_eq r, by unfold execPhaseAction execPhaseTool; rw [classifyAction_eq]⟩

/-- C7: with a sink present, a citation (codeExecution) notification
invokes the sink exactly twice, unconditionally, and a message
notification invokes it exactly once. -/
theorem c7_emit_counts (em : EventEmitter) (tr : Tracker) (content : List Char)
    (h : em.hasSink = true) :
    (em.code_execution tr).2.length = 2 ∧ (em.message content).2.length = 1 := by
  constructor <;>
    simp [EventEmitter.code_execution, EventEmitter.message, EventEmitter.emit, h]

/-- Witness for C7 at a concrete emitter, tracker and message content. -/
theorem c7_emit_counts_witness :
    ((⟨true, false, none, false⟩ : EventEmitter).code_execution
        ⟨"n".data, "c".data, "bash".data, none, none⟩).2.length = 2 ∧
    ((⟨true, false, none, false⟩ : EventEmitter).message "hi".data).2.length = 1 :=
  c7_emit_counts ⟨true, false, none, false⟩ ⟨"n".data, "c".data, "bash".data, none, none⟩
    "hi".data rfl

/-- C8: `clear_status` with no status ever emitted performs zero sink
invocations and leaves the state unchanged; after a status was emitted it
resets the flag and, when a sink is present, delivers the terminal empty
"complete" status exactly twice. -/
theorem c8_clear_status (em : EventEmitter) :
    (em.emittedStatus = false → em.clear_status = (em, [])) ∧
    (em.emittedStatus = true →
      (em.clear_status).1 = { em with emittedStatus := false } ∧
      (em.hasSink = true →
        (em.clear_status).2 =
          [Event.statusEv "complete".data [] true,
           Event.statusEv "complete".data [] true])) := by
  constructor
  · intro h
    simp [EventEmitter.clear_status, h]
  · intro h
    constructor
    · simp [EventEmitter.clear_status, h]
    · intro hs
      simp [EventEmitter.clear_status, EventEmitter.emit, h, hs]

/-- Witness for C8: both branches at concrete emitter states. -/
theorem c8_clear_status_witness :
    (⟨true, false, none, false⟩ : EventEmitter).clear_status =
      ((⟨true, false, none, false⟩ : EventEmitter), []) ∧
    ((⟨true, false, none, true⟩ : EventEmitter).clear_status).2 =
      [Event.statusEv "complete".data [] true,
       Event.statusEv "complete".data [] true] :=
  ⟨(c8_clear_status _).1 rfl, ((c8_clear_status _).2 rfl).2 rfl⟩

/-- C6 counterexample: normalization is not idempotent.  On the input
consisting of backtick, space, backtick, "x", one pass yields backtick
followed by "x" (stripping the outer backtick exposes whitespace whose
removal exposes the inner backtick), and a second pass strips further. -/
theorem c6_normalize_not_idem :
    normalizeCode "python".data (normalizeCode "python".data "` `x".data) ≠
      normalizeCode "python".data "` `x".data := by decide

/-- C6 amended: normalization is idempotent on every input whose
normalized form neither begins nor ends with a backtick character (the
counterexample shows the backtick-exposing inputs are genuine
exceptions). -/
theorem c6_normalize_idem_amended (language x : List Char)
    (ht1 : (normalizeCode language x).head? ≠ some tick)
    (ht2 : (normalizeCode language x).getLast? ≠ some tick) :
    normalizeCode language (normalizeCode language x) = normalizeCode language x :=
  normalizeCode_fix language _
    (fun a ha => normalizeCode_head_false language x a ha)
    (fun a ha => normalizeCode_last_false language x a ha)
    ht1 ht2

/-- Witness for the amended C6 at a concrete input. -/
theorem c6_normalize_idem_witness :
    normalizeCode "python".data (normalizeCode "python".data "abc".data) =
      normalizeCode "python".data "abc".data :=
  c6_normalize_idem_amended "python".data "abc".data (by decide) (by decide)


/-! ## Claim theorems: the direct-invocation pipeline -/

theorem runCode_exited_ok (ex : Oracle) (language code : String) (i : Interp)
    (out err : List Char) (h : interpFor language = some i)
    (hex : ex i (normalizeCode language.data code.data ++ "\n".data) = .exited 0 out err) :
    runCode ex language code = ⟨.OK, trimIfTruthy (some out)⟩ := by
  rw [runCode_cases ex language code i h, hex]
  simp

theorem runCode_exited_err (ex : Oracle) (language code : String) (i : Interp)
    (rc : Int) (out err : List Char) (h : interpFor language = some i) (hrc : rc ≠ 0)
    (hex : ex i (normalizeCode language.data code.data ++ "\n".data) = .exited rc out err) :
    runCode ex language code = ⟨.ERROR, trimIfTruthy (some err)⟩ := by
  rw [runCode_cases ex language code i h, hex]
  simp [hrc]

theorem runCode_timeout (ex : Oracle) (language code : String) (i : Interp)
    (st : Option (List Char)) (h : interpFor language = some i)
    (hex : ex i (normalizeCode language.data code.data ++ "\n".data) = .timedOut st) :
    runCode ex language code = ⟨.TIMEOUT, trimIfTruthy st⟩ := by
  rw [runCode_cases ex language code i h, hex]

/-- C1: for every request that reaches the subprocess (a recognized
language, hence an interpreter), the returned status is OK iff the
subprocess exited 0 (with the trimmed captured stdout as output), ERROR
iff it exited nonzero (with the trimmed captured stderr), TIMEOUT iff the
time budget was exceeded (with the trimmed partial stderr, when any), and
any non-empty returned output is trimmed of surrounding whitespace. -/
theorem c1_classification (ex : Oracle) (language code : String) (i : Interp)
    (h : interpFor language = some i) :
    ((runCode ex language code).status = .OK ↔
      ∃ out err, ex i (normalizeCode language.data code.data ++ "\n".data) =
        .exited 0 out err) ∧
    ((runCode ex language code).status = .ERROR ↔
      ∃ rc out err, rc ≠ 0 ∧
        ex i (normalizeCode language.data code.data ++ "\n".data) = .exited rc out err) ∧
    ((runCode ex language code).status = .TIMEOUT ↔
      ∃ st, ex i (normalizeCode language.data code.data ++ "\n".data) = .timedOut st) ∧
    (∀ out err,
      ex i (normalizeCode language.data code.data ++ "\n".data) = .exited 0 out err →
      (runCode ex language code).output = trimIfTruthy (some out)) ∧
    (∀ rc out err, rc ≠ 0 →
      ex i (normalizeCode language.data code.data ++ "\n".data) = .exited rc out err →
      (runCode ex language code).output = trimIfTruthy (some err)) ∧
    (∀ st, ex i (normalizeCode language.data code.data ++ "\n".data) = .timedOut st →
      (runCode ex language code).output = trimIfTruthy st) ∧
    (∀ s, (runCode ex language code).output = some s → s ≠ [] → pyStrip s = s) := by
  refine ⟨?_, ?_, ?_, ?_, ?_, ?_, ?_⟩
  · constructor
    · intro hst
      cases hex : ex i (normalizeCode language.data code.data ++ "\n".data) with
      | exited rc out err =>
        by_cases hrc : rc = 0
        · subst hrc
          exact ⟨out, err, rfl⟩
        · rw [runCode_exited_err ex language code i rc out err h hrc hex] at hst
          exact Status.noConfusion hst
      | timedOut st =>
        rw [runCode_timeout ex language code i st h hex] at hst
        exact Status.noConfusion hst
    · rintro ⟨out, err, hex⟩
      rw [runCode_exited_ok ex language code i out err h hex]
  · constructor
    · intro hst
      cases hex : ex i (normalizeCode language.data code.data ++ "\n".data) with
      | exited rc out err =>
        by_cases hrc : rc = 0
        · subst hrc
          rw [runCode_exited_ok ex language code i out err h hex] at hst
          exact Status.noConfusion hst
        · exact ⟨rc, out, err, hrc, rfl⟩
      | timedOut st =>
        rw [runCode_timeout ex language code i st h hex] at hst
        exact Status.noConfusion hst
    · rintro ⟨rc, out, err, hrc, hex⟩
      rw [runCode_exited_err ex language code i rc out err h hrc hex]
  · constructor
    · intro hst
      cases hex : ex i (normalizeCode language.data code.data ++ "\n".data) with
      | exited rc out err =>
        by_cases hrc : rc = 0
        · subst hrc
          rw [runCode_exited_ok ex language code i out err h hex] at hst
          exact Status.noConfusion hst
        · rw [runCode_exited_err ex language code i rc out err h hrc hex] at hst
          exact Status.noConfusion hst
      | timedOut st => exact ⟨st, rfl⟩
    · rintro ⟨st, hex⟩
      rw [runCode_timeout ex language code i st h hex]
  · intro out err hex
    rw [runCode_exited_ok ex language code i out err h hex]
  · intro rc out err hrc hex
    rw [runCode_exited_err ex language code i rc out err h hrc hex]
  · intro st hex
    rw [runCode_timeout ex language code i st h hex]
  · intro s hs hne
    cases hex : ex i (normalizeCode language.data code.data ++ "\n".data) with
    | exited rc out err =>
      by_cases hrc : rc = 0
      · subst hrc
        rw [runCode_exited_ok ex language code i out err h hex] at hs
        exact trimIfTruthy_trimmed (some out) s hs hne
      · rw [runCode_exited_err ex language code i rc out err h hrc hex] at hs
        exact trimIfTruthy_trimmed (some err) s hs hne
    | timedOut st =>
      rw [runCode_timeout ex language code i st h hex] at hs
      exact trimIfTruthy_trimmed st s hs hne

/-- Witness for C1: under the echoing oracle a bash request exits 0, so
the status is OK. -/
theorem c1_classification_witness :
    (runCode exEcho "bash" "echo hi").status = .OK :=
  (c1_classification exEcho "bash" "echo hi" .binBash (by decide)).1.mpr
    ⟨normalizeCode "bash".data "echo hi".data ++ "\n".data, [], rfl⟩

/-- C2: UNKNOWN is never the final status of either variant — the
returned status always lies in the classified set — and any internal path
reaching the final message step with an unclassified status raises the
"Unexplained status" fault instead of returning it. -/
theorem c2_no_unknown (ex : Oracle) (language code : String) (msgs : List Msg) :
    (runCode ex language code).status ≠ .UNKNOWN ∧
    (action ex msgs).status ≠ .UNKNOWN ∧
    (∀ st out, ¬(st = Status.OK ∨ st = Status.TIMEOUT ∨ st = Status.ERROR) →
      finalStep st out = .error ("Unexplained status: ".data ++ statusText st)) := by
  refine ⟨?_, ?_, ?_⟩
  · rcases runCode_status_mem ex language code with h | h | h | h <;> (rw [h]; decide)
  · rcases action_status_mem ex msgs with h | h | h | h | h <;> (rw [h]; decide)
  · intro st out hst
    unfold finalStep
    rw [if_neg hst]

/-- Witness for C2 at a concrete request, and the fault raised at the
UNKNOWN placeholder status itself. -/
theorem c2_no_unknown_witness :
    (runCode exEcho "bash" "pwd").status ≠ .UNKNOWN ∧
    finalStep .UNKNOWN none =
      .error ("Unexplained status: ".data ++ statusText .UNKNOWN) :=
  ⟨(c2_no_unknown exEcho "bash" "pwd" []).1,
   (c2_no_unknown exEcho "bash" "pwd" []).2.2 .UNKNOWN none (by decide)⟩

/-- C3: every exception value escaping the orchestration steps is caught
by the outermost handler and converted into the structured SANDBOX_ERROR
result whose output is the failure description; both variants run their
pipeline under exactly this catch-all. -/
theorem c3_catch_all_boundary (comp : Except (List Char) RunResult) (e : List Char)
    (ex : Oracle) (language code : String) (msgs : List Msg) (block : List Char)
    (lang : Lang) :
    (comp = .error e →
      catchAll comp = ⟨.SANDBOX_ERROR, some ("Unhandled exception: ".data ++ e)⟩) ∧
    runCode ex language code = catchAll (runCodeTry ex language code) ∧
    (parseTranscript msgs = .ok (block, lang) →
      action ex msgs = catchAll (actionTry ex lang block)) := by
  refine ⟨?_, rfl, ?_⟩
  · intro h
    rw [h]
    rfl
  · intro h
    exact action_of_parse_ok ex msgs block lang h

/-- Witness for C3: a concrete raised exception is converted to
SANDBOX_ERROR with the formatted message. -/
theorem c3_catch_all_witness :
    catchAll (.error "boom".data) =
      ⟨.SANDBOX_ERROR, some ("Unhandled exception: ".data ++ "boom".data)⟩ :=
  (c3_catch_all_boundary (.error "boom".data) "boom".data exEcho "bash" "x" [] []
    .bash).1 rfl

/-- C10: the direct entry points echo the raw, pre-normalization argument
character-for-character in the `bash_command` / `python_code` field, while
the subprocess is only ever consulted at the normalized code (two oracles
agreeing there give identical results); the last conjunct shows a fenced
input whose normalized executed form differs from the raw echo. -/
theorem c10_raw_echo (ex ex2 : Oracle) (c : String)
    (hb : ex .binBash (normalizeCode "bash".data c.data ++ "\n".data) =
      ex2 .binBash (normalizeCode "bash".data c.data ++ "\n".data))
    (hp : ex .sysExecutable (normalizeCode "python".data c.data ++ "\n".data) =
      ex2 .sysExecutable (normalizeCode "python".data c.data ++ "\n".data)) :
    (run_bash_command ex c).bash_command = c ∧
    (run_python_code ex c).python_code = c ∧
    run_bash_command ex c = run_bash_command ex2 c ∧
    run_python_code ex c = run_python_code ex2 c ∧
    normalizeCode "bash".data "```bash\nls\n```".data = "ls".data := by
  have hrb : runCode ex "bash" c = runCode ex2 "bash" c := by
    rw [runCode_cases ex "bash" c .binBash (by decide),
      runCode_cases ex2 "bash" c .binBash (by decide), hb]
  have hrp : runCode ex "python" c = runCode ex2 "python" c := by
    rw [runCode_cases ex "python" c .sysExecutable (by decide),
      runCode_cases ex2 "python" c .sysExecutable (by decide), hp]
  refine ⟨rfl, rfl, ?_, ?_, by decide⟩
  · unfold run_bash_command
    rw [hrb]
  · unfold run_python_code
    rw [hrp]

/-- Witness for C10 at a fenced bash input and a plain python input. -/
theorem c10_raw_echo_witness :
    (run_bash_command exEcho "```bash\nls\n```").bash_command = "```bash\nls\n```" ∧
    (run_python_code exEcho "x").python_code = "x" :=
  ⟨(c10_raw_echo exEcho exEcho "```bash\nls\n```" rfl rfl).1,
   (c10_raw_echo exEcho exEcho "x" rfl rfl).2.1⟩

/-! ## Claim theorems: the transcript path -/

/-- C4 counterexample: on a well-formed transcript whose single code block
is classified neither as Python nor as Shell, the returned status is
SANDBOX_ERROR (the `_fail` default), not INVALID_INPUT as claimed, even
though this is exactly the generic "no recognizable code block" case. -/
theorem c4_generic_case_not_invalid :
    (action exEcho [⟨"assistant", "```\nfoo\n```"⟩]).status = .SANDBOX_ERROR ∧
    (action exEcho [⟨"assistant", "```\nfoo\n```"⟩]).output =
      some "Message does not contain code blocks detected as Python or Bash.".data ∧
    (action exEcho [⟨"assistant", "```\nfoo\n```"⟩]).status ≠ .INVALID_INPUT := by
  refine ⟨?_, ?_, ?_⟩ <;> decide

/-- C4 amended: the transcript variant returns INVALID_INPUT exactly when
the message list is empty, the last message's role is not "assistant", or
the fence split yields fewer than 3 segments or an even segment count; the
generic "no recognizable code block" case instead returns SANDBOX_ERROR
(`_fail` is called without a status there, so its default applies). -/
theorem c4_invalid_input_amended (ex : Oracle) (msgs : List Msg) :
    ((action ex msgs).status = .INVALID_INPUT ↔
      (msgs.getLast? = none ∨
        ∃ last, msgs.getLast? = some last ∧
          (¬ last.role = "assistant" ∨
            (splitTicks last.content.data []).length < 3 ∨
            (splitTicks last.content.data []).length % 2 ≠ 1))) ∧
    (∀ last, msgs.getLast? = some last → last.role = "assistant" →
      ¬((splitTicks last.content.data []).length < 3 ∨
        (splitTicks last.content.data []).length % 2 ≠ 1) →
      scanBlocks ((oddElems (splitTicks last.content.data [])).reverse) none = none →
      classifyLast ((splitTicks last.content.data []).getD
          ((splitTicks last.content.data []).length - 2) []) = none →
      action ex msgs =
        ⟨.SANDBOX_ERROR,
         some "Message does not contain code blocks detected as Python or Bash.".data⟩) := by
  constructor
  · constructor
    · intro hst
      cases hml : msgs.getLast? with
      | none => exact Or.inl rfl
      | some last =>
        refine Or.inr ⟨last, rfl, ?_⟩
        by_cases hrole : last.role = "assistant"
        · by_cases hseg : (splitTicks last.content.data []).length < 3 ∨
              (splitTicks last.content.data []).length % 2 ≠ 1
          · exact Or.inr hseg
          · exfalso
            cases hscan : scanBlocks ((oddElems (splitTicks last.content.data [])).reverse)
                none with
            | some p =>
              obtain ⟨block, lang⟩ := p
              have hpe := parse_eq_scan msgs last (block, lang) hml hrole hseg hscan
              rw [action_of_parse_ok ex msgs block lang hpe] at hst
              rcases actionCore_status ex lang block with hx | hx | hx <;>
                (rw [hst] at hx; exact Status.noConfusion hx)
            | none =>
              cases hcl : classifyLast ((splitTicks last.content.data []).getD
                  ((splitTicks last.content.data []).length - 2) []) with
              | some p =>
                obtain ⟨block, lang⟩ := p
                have hpe := parse_eq_classify msgs last (block, lang) hml hrole hseg hscan hcl
                rw [action_of_parse_ok ex msgs block lang hpe] at hst
                rcases actionCore_status ex lang block with hx | hx | hx <;>
                  (rw [hst] at hx; exact Status.noConfusion hx)
              | none =>
                have hpe := parse_eq_noblock msgs last hml hrole hseg hscan hcl
                rw [action_of_parse_error ex msgs _ hpe] at hst
                exact Status.noConfusion hst
        · exact Or.inl hrole
    · intro hrhs
      rcases hrhs with hml | ⟨last, hml, hcase⟩
      · rw [action_of_parse_error ex msgs _ (parse_eq_none msgs hml)]
      · by_cases hrole : last.role = "assistant"
        · rcases hcase with hr | hseg
          · exact absurd hrole hr
          · rw [action_of_parse_error ex msgs _ (parse_eq_fences msgs last hml hrole hseg)]
        · rw [action_of_parse_error ex msgs _ (parse_eq_role msgs last hml hrole)]
  · intro last hml hrole hseg hscan hcl
    exact action_of_parse_error ex msgs _ (parse_eq_noblock msgs last hml hrole hseg hscan hcl)

/-- Witness for the amended C4: the generic-case clause applied to the
concrete no-recognizable-block transcript. -/
theorem c4_invalid_input_witness :
    action exEcho [⟨"assistant", "```\nfoo\n```"⟩] =
      ⟨.SANDBOX_ERROR,
       some "Message does not contain code blocks detected as Python or Bash.".data⟩ :=
  (c4_invalid_input_amended exEcho [⟨"assistant", "```\nfoo\n```"⟩]).2
    ⟨"assistant", "```\nfoo\n```"⟩ rfl rfl (by decide) (by decide) (by decide)

/-- C5 counterexample: with two Python-tagged blocks and no Shell block,
the scan selects the OLDEST Python block, not the newest: end to end, the
echoing oracle shows block "A" (the earlier block) is executed, and the
scan on the newest-first candidates picks the older block. -/
theorem c5_newest_python_cex :
    action exEcho [⟨"assistant", "x```python\nA``` mid ```python\nB```"⟩] =
      ⟨.OK, some "A".data⟩ ∧
    scanBlocks ["python\nB".data, "python\nA".data] none ≠
      some ("python\nB".data, Lang.python) := by
  constructor <;> decide

/-- C5 amended: scanning newest to oldest, the newest Shell-tagged block
is selected the moment it is reached, overriding any Python match; with no
Shell-tagged block, the scan returns the OLDEST Python-tagged candidate
(each older Python match overwrites the remembered newer one), not the
newest. -/
theorem c5_selector_amended (cands : List (List Char)) :
    (∀ b, cands.find? isShTagB = some b → scanBlocks cands none = some (b, Lang.bash)) ∧
    ((∀ b ∈ cands, isShTagB b = false) →
      scanBlocks cands none =
        ((cands.filter isPyTagB).getLast?).map (fun b => (b, Lang.python))) := by
  constructor
  · intro b h
    exact scanBlocks_shell cands none b h
  · intro h
    rw [scanBlocks_no_shell cands none h]
    cases hfl : (cands.filter isPyTagB).getLast? with
    | none => rfl
    | some x => rfl

/-- Witness for the amended C5: the oldest of two Python-tagged candidates
is selected, and a Shell-tagged candidate wins over a newer Python one. -/
theorem c5_selector_witness :
    scanBlocks ["python\nB".data, "python\nA".data] none =
      some ("python\nA".data, Lang.python) ∧
    scanBlocks ["python\nB".data, "bash\nC".data] none =
      some ("bash\nC".data, Lang.bash) := by
  constructor
  · rw [(c5_selector_amended ["python\nB".data, "python\nA".data]).2 (by decide)]
    decide
  · exact (c5_selector_amended ["python\nB".data, "bash\nC".data]).1 "bash\nC".data
      (by decide)

end UCE
